import Mathlib

/-!
Verification of the dual-store read/write consistency and search-fallback
engine of the job-posting service (`src/services/JobService.js`).

The service is embedded shallowly: external collaborators (the search index
client, the relational store contents, the membership service, the skill and
role lookups, the event transport) are oracles collected in an `Env` record,
and each service operation is a Lean function of the environment, the calling
user and its arguments, returning an `Except`-style result together with the
trace of store calls it issued (for reads) or the resulting store state,
emitted events and logs (for writes).
-/

namespace Taas

/-- Error taxonomy of the service (`errors.ForbiddenError`,
`errors.NotFoundError`, `errors.BadRequestError`, plus a catch-all for
unexpected collaborator failures that propagate unchanged). -/
inductive SvcError where
  | forbidden (msg : String)
  | notFound (msg : String)
  | badRequest (msg : String)
  | internal (msg : String)
  deriving DecidableEq, Repr

/-- The authenticated caller (`currentUser`): role flags used by the
permission checks, and the caller's external user id. -/
structure CurrentUser where
  userId : String
  hasManagePermission : Bool
  isMachine : Bool
  isConnectManager : Bool
  deriving DecidableEq, Repr

/-- A job candidate child record (fetched, never mutated, by this core). -/
structure Candidate where
  id : String
  jobId : String
  userId : String
  deriving DecidableEq, Repr

/-- The attribute payload of a Job record (identity and candidate
association kept outside, in `JobRow`). -/
structure JobAttrs where
  projectId : Int
  externalId : Option String := none
  description : Option String := none
  title : String := ""
  startDate : Option String := none
  duration : Option Int := none
  numPositions : Int := 1
  resourceType : Option String := none
  rateType : Option String := none
  workload : Option String := none
  status : String := "sourcing"
  skills : List String := []
  roles : List String := []
  roleIds : Option (List String) := none
  isApplicationPageActive : Option Bool := none
  minSalary : Option Int := none
  maxSalary : Option Int := none
  hoursPerWeek : Option Int := none
  jobLocation : Option String := none
  jobTimezone : Option String := none
  currency : Option String := none
  createdBy : String := ""
  updatedBy : Option String := none
  createdAt : Int := 0
  deriving DecidableEq, Repr

/-- A row of the relational `Job` table, with its associated candidates
(the association eager-loaded by `findById(id, true)` / the fallback query's
`include`). -/
structure JobRow where
  id : String
  attrs : JobAttrs
  candidates : List Candidate := []
  deriving DecidableEq, Repr

/-- A job record as returned to the caller. `candidates = none` models the
`candidates` key being absent from the returned JSON object, `some l` models
the key being present with value `l`. -/
structure JobResult where
  id : String
  attrs : JobAttrs
  candidates : Option (List Candidate)
  deriving DecidableEq, Repr

/-- A hit/document of the job search index: `_id` plus `_source`. -/
structure EsHit where
  id : String
  source : JobAttrs
  deriving DecidableEq, Repr

/-- Outcome of `esClient.get` on the job index: a document, the structural
document-missing condition (`helper.isDocumentMissingException`), or any
other index failure (network, cluster unavailable, malformed response). -/
inductive EsGetOutcome where
  | ok (hit : EsHit)
  | docMissing
  | failure
  deriving DecidableEq, Repr

/-- Outcome of `esClient.search` on the job index: a page of hits together
with the authoritative `hits.total.value`, or any index failure. -/
inductive EsSearchOutcome where
  | ok (hits : List EsHit) (total : Nat)
  | failure
  deriving DecidableEq, Repr

/-- Outcome of `helper.getSkillById` for one skill id: found, a 404
(skill does not exist), or any other error (which propagates). -/
inductive SkillOutcome where
  | found
  | notFound
  | failure
  deriving DecidableEq, Repr

/-- JSON scalar values appearing in index query clauses. -/
inductive JVal where
  | s (v : String)
  | n (v : Int)
  deriving DecidableEq, Repr

/-- A clause of the index query body built by `searchJobs`: a `match`
(relevance) clause, a `terms` clause, or a `term` clause. -/
inductive EsClause where
  | matchClause (field : String) (query : String)
  | termsClause (field : String) (values : List JVal)
  | termClause (field : String) (value : JVal)
  deriving DecidableEq, Repr

/-- The index query built by `searchJobs`: `bool.must` clauses,
`bool.filter` clauses, `from`, `size` and the single sort entry. -/
structure EsQuery where
  must : List EsClause
  filter : List EsClause
  fromOffset : Int
  size : Int
  sortField : String
  sortOrder : String
  deriving DecidableEq, Repr

/-- A propagation-event payload (`created.toJSON()`, `updated.toJSON()` with
the prior snapshot, or the deleted id). -/
inductive EventPayload where
  | jobCreated (job : JobRow)
  | jobUpdated (updated : JobRow) (oldValue : JobRow)
  | jobDeleted (id : String)
  deriving DecidableEq, Repr

/-- A propagation event handed to the event channel. -/
structure Event where
  topic : String
  payload : EventPayload
  deriving DecidableEq, Repr

/-- A call issued to one of the two stores (the search index or the
relational store). Calls to the membership / identity / skill services are
not store calls. -/
inductive StoreCall where
  | indexGet (id : String)
  | indexSearch
  | indexCandidates (jobId : String)
  | dbFindById (id : String)
  | dbQuery
  deriving DecidableEq, Repr

/-- The environment of external collaborators: membership service, index
client, skill/role lookups, identity mapping, id generator, event transport
and the relational `Job` table contents. -/
structure Env where
  isMember : String → Int → Bool
  esGet : String → EsGetOutcome
  esSearch : EsQuery → EsSearchOutcome
  esCandidates : String → Except Unit (List Candidate)
  skillLookup : String → SkillOutcome
  roleTable : List String
  getUserId : String → String
  freshId : String
  publishOk : String → Bool
  db : List JobRow

/-- Store state, events and logs produced by a write operation. -/
structure OpEffects where
  db : List JobRow
  events : List Event
  logs : List String
  deriving DecidableEq, Repr

/-- Modelled from the spec: `helper.checkIsMemberOfProject` lives in
`src/common/helper.js`, which is not under `src/`. Per §6 of the spec the
membership service raises Forbidden if the user is not a member of the
project. -/
def checkIsMemberOfProject (env : Env) (userId : String) (projectId : Int) :
    Except SvcError Unit :=
  if env.isMember userId projectId then Except.ok ()
  else Except.error (SvcError.forbidden "You are not a member of this project")

/-- `_checkUserPermissionForGetJob`: managers, machine identities and
connect managers bypass the membership check. -/
def checkUserPermissionForGetJob (env : Env) (u : CurrentUser) (projectId : Int) :
    Except SvcError Unit :=
  if !u.hasManagePermission && !u.isMachine && !u.isConnectManager then
    checkIsMemberOfProject env u.userId projectId
  else Except.ok ()

/-- Modelled from the spec: `Job.findById` lives in `src/models`, which is
not under `src/`. Per §4.2 of the spec a missing record raises NotFound. -/
def jobFindById (db : List JobRow) (id : String) : Except SvcError JobRow :=
  match db.find? (fun r => r.id = id) with
  | some row => Except.ok row
  | none => Except.error (SvcError.notFound ("id: " ++ id ++ " Job doesn't exists"))

/-- The relational branch of `getJob` (always reached when `fromDb` is true,
and reached as the fallback after a logged index failure otherwise):
`Job.findById(id, true)`, permission check, then `dataValues` with the
`candidates` key always assigned. -/
def getJobFromDb (env : Env) (u : CurrentUser) (id : String)
    (trace : List StoreCall) : Except SvcError JobResult × List StoreCall :=
  let trace := trace ++ [StoreCall.dbFindById id]
  match jobFindById env.db id with
  | Except.error e => (Except.error e, trace)
  | Except.ok row =>
    match checkUserPermissionForGetJob env u row.attrs.projectId with
    | Except.error e => (Except.error e, trace)
    | Except.ok _ =>
      (Except.ok { id := row.id, attrs := row.attrs, candidates := some row.candidates },
       trace)

/-- `getJob(currentUser, id, fromDb)`. On the index path, the catch block
dispatches: a structural document-missing condition becomes NotFound (no
fallback); a Forbidden thrown by the permission check is re-thrown; any
other error (index get failure, candidate-fetch failure) is logged and
falls through to the relational branch. -/
def getJob (env : Env) (u : CurrentUser) (id : String) (fromDb : Bool) :
    Except SvcError JobResult × List StoreCall :=
  if !fromDb then
    match env.esGet id with
    | EsGetOutcome.docMissing =>
      (Except.error (SvcError.notFound ("id: " ++ id ++ " Job not found")),
       [StoreCall.indexGet id])
    | EsGetOutcome.failure => getJobFromDb env u id [StoreCall.indexGet id]
    | EsGetOutcome.ok hit =>
      match checkUserPermissionForGetJob env u hit.source.projectId with
      | Except.error e => (Except.error e, [StoreCall.indexGet id])
      | Except.ok _ =>
        match env.esCandidates hit.id with
        | Except.error _ =>
          getJobFromDb env u id [StoreCall.indexGet id, StoreCall.indexCandidates hit.id]
        | Except.ok cands =>
          (Except.ok { id := hit.id, attrs := hit.source,
                       candidates := if cands.length != 0 then some cands else none },
           [StoreCall.indexGet id, StoreCall.indexCandidates hit.id])
  else getJobFromDb env u id []

/-- The search criteria accepted by `searchJobs` (after boundary schema
validation). `none` models an absent key. -/
structure SearchCriteria where
  page : Option Int := none
  perPage : Option Int := none
  sortBy : Option String := none
  sortOrder : Option String := none
  projectId : Option Int := none
  externalId : Option String := none
  description : Option String := none
  title : Option String := none
  startDate : Option String := none
  resourceType : Option String := none
  skill : Option String := none
  role : Option String := none
  rateType : Option String := none
  workload : Option String := none
  status : Option String := none
  projectIds : Option (List Int) := none
  jobIds : Option (List String) := none
  deriving DecidableEq, Repr

/-- The `options` argument of `searchJobs`. -/
structure SearchOptions where
  returnAll : Bool := false
  deriving DecidableEq, Repr

/-- The search result object: the index path returns it without a `fromDb`
key (modelled as `fromDb = false`), the fallback path with `fromDb: true`. -/
structure SearchResult where
  fromDb : Bool
  total : Nat
  page : Int
  perPage : Int
  result : List JobResult
  deriving DecidableEq, Repr

/-- `criteria.page > 0 ? criteria.page : 1` (an absent page is not `> 0`). -/
def effPage (c : SearchCriteria) : Int :=
  match c.page with
  | some p => if p > 0 then p else 1
  | none => 1

/-- The effective page size: `10000` (the index maximum result window) when
`options.returnAll`, otherwise `criteria.perPage > 0 ? criteria.perPage : 20`. -/
def effPerPage (c : SearchCriteria) (o : SearchOptions) : Int :=
  if o.returnAll then 10000
  else
    match c.perPage with
    | some pp => if pp > 0 then pp else 20
    | none => 20

/-- `criteria.sortBy`, defaulted to `id` when absent. -/
def effSortBy (c : SearchCriteria) : String := c.sortBy.getD "id"

/-- `criteria.sortOrder`, defaulted to `desc` when absent. -/
def effSortOrder (c : SearchCriteria) : String := c.sortOrder.getD "desc"

/-- The `bool.must` clauses built from the picked criteria keys, in the
pick order of the source: `description`/`title` become `match` clauses,
`skill`/`role` become `terms` clauses on the plural field, every other
present key becomes a `term` clause. -/
def searchMustClauses (c : SearchCriteria) : List EsClause :=
  (match c.projectId with
   | some v => [EsClause.termClause "projectId" (JVal.n v)] | none => []) ++
  (match c.externalId with
   | some v => [EsClause.termClause "externalId" (JVal.s v)] | none => []) ++
  (match c.description with
   | some v => [EsClause.matchClause "description" v] | none => []) ++
  (match c.startDate with
   | some v => [EsClause.termClause "startDate" (JVal.s v)] | none => []) ++
  (match c.resourceType with
   | some v => [EsClause.termClause "resourceType" (JVal.s v)] | none => []) ++
  (match c.skill with
   | some v => [EsClause.termsClause "skills" [JVal.s v]] | none => []) ++
  (match c.role with
   | some v => [EsClause.termsClause "roles" [JVal.s v]] | none => []) ++
  (match c.rateType with
   | some v => [EsClause.termClause "rateType" (JVal.s v)] | none => []) ++
  (match c.workload with
   | some v => [EsClause.termClause "workload" (JVal.s v)] | none => []) ++
  (match c.title with
   | some v => [EsClause.matchClause "title" v] | none => []) ++
  (match c.status with
   | some v => [EsClause.termClause "status" (JVal.s v)] | none => [])

/-- The `bool.filter` clauses: a `terms` restriction on `projectId` when
`criteria.projectIds` is present, and on `_id` when `criteria.jobIds` is
present and non-empty. -/
def searchFilterClauses (c : SearchCriteria) : List EsClause :=
  (match c.projectIds with
   | some vs => [EsClause.termsClause "projectId" (vs.map JVal.n)]
   | none => []) ++
  (match c.jobIds with
   | some ids =>
     if ids.length > 0 then [EsClause.termsClause "_id" (ids.map JVal.s)] else []
   | none => [])

/-- The full index query built by `searchJobs`: clauses plus
`from: (page - 1) * perPage`, `size: perPage` and the sort entry (sorting by
`id` maps to the index's `_id` field). -/
def jobSearchQuery (c : SearchCriteria) (o : SearchOptions) : EsQuery :=
  { must := searchMustClauses c
    filter := searchFilterClauses c
    fromOffset := (effPage c - 1) * effPerPage c o
    size := effPerPage c o
    sortField := if effSortBy c = "id" then "_id" else effSortBy c
    sortOrder := effSortOrder c }

/-- SQL `LIKE '%pat%'` containment on a string. -/
def likeContains (pat target : String) : Bool :=
  if pat = "" then true else (target.splitOn pat).length > 1

/-- The relational `where` filter built by the fallback branch of
`searchJobs`: exact-match conjunctions for the scalar keys, `LIKE`
substring matching for `description`/`title` (false on a NULL column),
array containment for `skill`/`role`, and membership of the row id in
`jobIds` when present and non-empty. `criteria.projectIds` is not part of
this filter (the source omits it on the fallback path). -/
def rowMatchesDbFilter (c : SearchCriteria) (r : JobRow) : Bool :=
  (match c.projectId with | some v => r.attrs.projectId = v | none => true) &&
  (match c.externalId with | some v => r.attrs.externalId = some v | none => true) &&
  (match c.startDate with | some v => r.attrs.startDate = some v | none => true) &&
  (match c.resourceType with | some v => r.attrs.resourceType = some v | none => true) &&
  (match c.rateType with | some v => r.attrs.rateType = some v | none => true) &&
  (match c.workload with | some v => r.attrs.workload = some v | none => true) &&
  (match c.status with | some v => r.attrs.status = v | none => true) &&
  (match c.description with
   | some v =>
     match r.attrs.description with
     | some d => likeContains v d
     | none => false
   | none => true) &&
  (match c.title with | some v => likeContains v r.attrs.title | none => true) &&
  (match c.skill with | some v => r.attrs.skills.contains v | none => true) &&
  (match c.role with | some v => r.attrs.roles.contains v | none => true) &&
  (match c.jobIds with
   | some ids => if ids.length > 0 then ids.contains r.id else true
   | none => true)

/-- The sort key used by the relational `ORDER BY` for the allowed sort
columns. -/
def dbSortKey (sortBy : String) (r : JobRow) : String :=
  if sortBy = "createdAt" then toString r.attrs.createdAt
  else if sortBy = "startDate" then r.attrs.startDate.getD ""
  else if sortBy = "rateType" then r.attrs.rateType.getD ""
  else if sortBy = "status" then r.attrs.status
  else r.id

/-- Modelled from the spec: the `ORDER BY` applied by the relational store
engine (sequelize and the database are not under `src/`); a total
reordering of the filtered rows by the requested column and direction. -/
def dbOrderRows (sortBy sortOrder : String) (rows : List JobRow) : List JobRow :=
  if sortOrder = "asc" then
    rows.mergeSort (fun a b => dbSortKey sortBy a ≤ dbSortKey sortBy b)
  else
    rows.mergeSort (fun a b => dbSortKey sortBy b ≤ dbSortKey sortBy a)

/-- The relational fallback branch of `searchJobs` (`Job.findAll` with the
translated filter, `offset`, `limit`, `order`, candidates included):
returns `fromDb: true`, `total` equal to the number of rows fetched for the
page, and the rows' `dataValues` with the `candidates` key always present. -/
def searchJobsDb (env : Env) (c : SearchCriteria) (page perPage : Int)
    (sortBy sortOrder : String) : SearchResult :=
  let jobs :=
    ((dbOrderRows sortBy sortOrder (env.db.filter (rowMatchesDbFilter c))).drop
        ((page - 1) * perPage).toNat).take perPage.toNat
  { fromDb := true
    total := jobs.length
    page := page
    perPage := perPage
    result := jobs.map (fun r =>
      { id := r.id, attrs := r.attrs, candidates := some r.candidates }) }

/-- Enrichment of the index hits with candidates (`_getJobCandidates` per
hit, inside the `try` block): the `candidates` key is assigned only when
the fetched list is non-empty; any candidate-fetch failure aborts the index
path. -/
def enrichHits (env : Env) : List EsHit → Except Unit (List JobResult)
  | [] => Except.ok []
  | hit :: rest =>
    match env.esCandidates hit.id, enrichHits env rest with
    | Except.ok cands, Except.ok tail =>
      Except.ok ({ id := hit.id, attrs := hit.source,
                   candidates := if cands.length != 0 then some cands else none } :: tail)
    | _, _ => Except.error ()

/-- The permission step of `searchJobs`: a caller without manage
permission, machine identity, connect-manager role or `returnAll` must
filter by a truthy `projectId` (a present `0` is falsy in the source) and
be a member of that project. -/
def searchJobsPermission (env : Env) (u : CurrentUser) (c : SearchCriteria)
    (o : SearchOptions) : Except SvcError Unit :=
  if !u.hasManagePermission && !u.isMachine && !u.isConnectManager && !o.returnAll then
    match c.projectId with
    | none => Except.error (SvcError.forbidden "Not allowed without filtering by projectId")
    | some pid =>
      if pid = 0 then
        Except.error (SvcError.forbidden "Not allowed without filtering by projectId")
      else checkIsMemberOfProject env u.userId pid
  else Except.ok ()

/-- `searchJobs(currentUser, criteria, options)`: permission step, effective
pagination and sort, then the index query inside a `try` whose catch only
logs and falls through to the relational fallback branch. -/
def searchJobs (env : Env) (u : CurrentUser) (c : SearchCriteria)
    (o : SearchOptions) : Except SvcError SearchResult × List StoreCall :=
  match searchJobsPermission env u c o with
  | Except.error e => (Except.error e, [])
  | Except.ok _ =>
    let page := effPage c
    let perPage := effPerPage c o
    let sortBy := effSortBy c
    let sortOrder := effSortOrder c
    match env.esSearch (jobSearchQuery c o) with
    | EsSearchOutcome.failure =>
      (Except.ok (searchJobsDb env c page perPage sortBy sortOrder),
       [StoreCall.indexSearch, StoreCall.dbQuery])
    | EsSearchOutcome.ok hits total =>
      match enrichHits env hits with
      | Except.error _ =>
        (Except.ok (searchJobsDb env c page perPage sortBy sortOrder),
         StoreCall.indexSearch ::
           (hits.map (fun h => StoreCall.indexCandidates h.id) ++ [StoreCall.dbQuery]))
      | Except.ok result =>
        (Except.ok { fromDb := false, total := total, page := page,
                     perPage := perPage, result := result },
         StoreCall.indexSearch :: hits.map (fun h => StoreCall.indexCandidates h.id))

/-- `_.uniq`: de-duplication keeping the first occurrence of each value. -/
def jsUniq : List String → List String
  | [] => []
  | x :: xs => x :: jsUniq (xs.filter (fun y => y ≠ x))
termination_by l => l.length
decreasing_by
  simp only [List.length_cons]
  exact Nat.lt_succ_of_le (List.length_filter_le _ _)

/-- `_validateSkills`: each skill is looked up; a 404 marks it invalid, any
other lookup failure propagates; if any skill is invalid the whole call
fails with BadRequest listing the invalid skills. -/
def validateSkills (env : Env) (skills : List String) : Except SvcError Unit :=
  if skills.any (fun s => env.skillLookup s = SkillOutcome.failure) then
    Except.error (SvcError.internal "skill lookup failed")
  else
    let invalid := skills.filter (fun s => env.skillLookup s = SkillOutcome.notFound)
    if invalid.length != 0 then
      Except.error (SvcError.badRequest
        ("Invalid skills: [" ++ String.intercalate "," invalid ++ "]"))
    else Except.ok ()

/-- `_validateRoles`: the ids found in the role store are subtracted from
the requested ids; any nonexistent id yields BadRequest. -/
def validateRoles (env : Env) (roles : List String) : Except SvcError Unit :=
  let foundRoles := roles.filter (fun r => env.roleTable.contains r)
  let nonexistentRoles := roles.filter (fun r => !foundRoles.contains r)
  if nonexistentRoles.length > 0 then
    Except.error (SvcError.badRequest
      ("Invalid roles: [" ++ String.intercalate "," nonexistentRoles ++ "]"))
  else Except.ok ()

/-- Modelled from the spec: `helper.postEvent` lives in
`src/common/helper.js`, which is not under `src/`. Per §4.4 and §7 of the
spec publishing is best-effort: a transport failure must not fail the write
operation that triggered it and is only logged. The model therefore always
returns the attempted event, together with the log entries produced when
the transport fails. -/
def postEvent (env : Env) (topic : String) (payload : EventPayload) :
    Event × List String :=
  ({ topic := topic, payload := payload },
   if env.publishOk topic then [] else ["postEvent failed: " ++ topic])

/-- A patch accepted by the update schemas; `none` models an absent key. -/
structure UpdateData where
  status : Option String := none
  externalId : Option String := none
  description : Option String := none
  title : Option String := none
  startDate : Option String := none
  duration : Option Int := none
  numPositions : Option Int := none
  resourceType : Option String := none
  rateType : Option String := none
  workload : Option String := none
  skills : Option (List String) := none
  isApplicationPageActive : Option Bool := none
  minSalary : Option Int := none
  maxSalary : Option Int := none
  hoursPerWeek : Option Int := none
  jobLocation : Option String := none
  jobTimezone : Option String := none
  currency : Option String := none
  roleIds : Option (List String) := none
  updatedBy : Option String := none
  deriving DecidableEq, Repr

/-- `job.update(data)`: every key present in the patch overwrites the
stored attribute. -/
def applyPatch (a : JobAttrs) (d : UpdateData) : JobAttrs :=
  { a with
    status := d.status.getD a.status
    externalId := match d.externalId with | some v => some v | none => a.externalId
    description := match d.description with | some v => some v | none => a.description
    title := d.title.getD a.title
    startDate := match d.startDate with | some v => some v | none => a.startDate
    duration := match d.duration with | some v => some v | none => a.duration
    numPositions := d.numPositions.getD a.numPositions
    resourceType := match d.resourceType with | some v => some v | none => a.resourceType
    rateType := match d.rateType with | some v => some v | none => a.rateType
    workload := match d.workload with | some v => some v | none => a.workload
    skills := d.skills.getD a.skills
    isApplicationPageActive :=
      match d.isApplicationPageActive with
      | some v => some v | none => a.isApplicationPageActive
    minSalary := match d.minSalary with | some v => some v | none => a.minSalary
    maxSalary := match d.maxSalary with | some v => some v | none => a.maxSalary
    hoursPerWeek := match d.hoursPerWeek with | some v => some v | none => a.hoursPerWeek
    jobLocation := match d.jobLocation with | some v => some v | none => a.jobLocation
    jobTimezone := match d.jobTimezone with | some v => some v | none => a.jobTimezone
    currency := match d.currency with | some v => some v | none => a.currency
    roleIds := match d.roleIds with | some v => some v | none => a.roleIds
    updatedBy := match d.updatedBy with | some v => some v | none => a.updatedBy }

/-- `createJob(currentUser, job)`: membership check for unprivileged
callers, machine-only guard for `isApplicationPageActive`, skill and
(de-duplicated) role validation, id minting, creator recording, the
relational insert, then the propagation event. -/
def createJob (env : Env) (u : CurrentUser) (job : JobAttrs) :
    Except SvcError JobRow × OpEffects :=
  let noEff : OpEffects := { db := env.db, events := [], logs := [] }
  if !u.hasManagePermission && !u.isMachine && !(env.isMember u.userId job.projectId) then
    (Except.error (SvcError.forbidden "You are not a member of this project"), noEff)
  else if job.isApplicationPageActive.isSome && !u.isMachine then
    (Except.error (SvcError.forbidden
      "You are not allowed to set/update the value of field isApplicationPageActive."),
     noEff)
  else
    match validateSkills env job.skills with
    | Except.error e => (Except.error e, noEff)
    | Except.ok _ =>
      let job := match job.roleIds with
                 | some ids => { job with roleIds := some (jsUniq ids) }
                 | none => job
      match (match job.roleIds with
             | some ids => validateRoles env ids
             | none => Except.ok ()) with
      | Except.error e => (Except.error e, noEff)
      | Except.ok _ =>
        let job := { job with createdBy := env.getUserId u.userId }
        let newRow : JobRow := { id := env.freshId, attrs := job, candidates := [] }
        let pe := postEvent env "TAAS_JOB_CREATE_TOPIC" (EventPayload.jobCreated newRow)
        (Except.ok newRow,
         { db := env.db ++ [newRow], events := [pe.1], logs := pe.2 })

/-- `updateJob(currentUser, id, data)`: skill validation, (de-duplicated)
role validation and the job lookup all run before the machine-only guard
for `isApplicationPageActive` and the creator-or-privileged check; then the
relational update, the propagation event with the prior snapshot, and a
re-fetch whose `dataValues` always carries the `candidates` key. -/
def updateJob (env : Env) (u : CurrentUser) (id : String) (data : UpdateData) :
    Except SvcError JobResult × OpEffects :=
  let noEff : OpEffects := { db := env.db, events := [], logs := [] }
  match (match data.skills with
         | some ss => validateSkills env ss
         | none => Except.ok ()) with
  | Except.error e => (Except.error e, noEff)
  | Except.ok _ =>
    let data := match data.roleIds with
                | some ids => { data with roleIds := some (jsUniq ids) }
                | none => data
    match (match data.roleIds with
           | some ids => validateRoles env ids
           | none => Except.ok ()) with
    | Except.error e => (Except.error e, noEff)
    | Except.ok _ =>
      match jobFindById env.db id with
      | Except.error e => (Except.error e, noEff)
      | Except.ok job =>
        if data.isApplicationPageActive.isSome && !u.isMachine then
          (Except.error (SvcError.forbidden
            "You are not allowed to set/update the value of field isApplicationPageActive."),
           noEff)
        else
          let ubahnUserId := env.getUserId u.userId
          if !u.hasManagePermission && !u.isMachine && ubahnUserId ≠ job.attrs.createdBy then
            (Except.error (SvcError.forbidden "You are not allowed to perform this action!"),
             noEff)
          else
            let data := { data with updatedBy := some ubahnUserId }
            let updatedRow : JobRow := { job with attrs := applyPatch job.attrs data }
            let pe := postEvent env "TAAS_JOB_UPDATE_TOPIC"
              (EventPayload.jobUpdated updatedRow job)
            (Except.ok { id := updatedRow.id, attrs := updatedRow.attrs,
                         candidates := some updatedRow.candidates },
             { db := env.db.map (fun r => if r.id = id then updatedRow else r)
               events := [pe.1]
               logs := pe.2 })

/-- `partiallyUpdateJob` delegates to `updateJob`; the source passes a
fourth argument `false` that `updateJob`'s parameter list does not bind. -/
def partiallyUpdateJob (env : Env) (u : CurrentUser) (id : String)
    (data : UpdateData) : Except SvcError JobResult × OpEffects :=
  updateJob env u id data

/-- `fullyUpdateJob` delegates to `updateJob`; the source passes a fourth
argument `true` that `updateJob`'s parameter list does not bind. -/
def fullyUpdateJob (env : Env) (u : CurrentUser) (id : String)
    (data : UpdateData) : Except SvcError JobResult × OpEffects :=
  updateJob env u id data

/-- `deleteJob(currentUser, id)`: privileged callers only; lookup, destroy,
then the propagation event. -/
def deleteJob (env : Env) (u : CurrentUser) (id : String) :
    Except SvcError Unit × OpEffects :=
  let noEff : OpEffects := { db := env.db, events := [], logs := [] }
  if !u.hasManagePermission && !u.isMachine then
    (Except.error (SvcError.forbidden "You are not allowed to perform this action!"), noEff)
  else
    match jobFindById env.db id with
    | Except.error e => (Except.error e, noEff)
    | Except.ok _ =>
      let pe := postEvent env "TAAS_JOB_DELETE_TOPIC" (EventPayload.jobDeleted id)
      (Except.ok (),
       { db := env.db.filter (fun r => r.id ≠ id), events := [pe.1], logs := pe.2 })

/-! ### Concrete fixtures used by witnesses and counterexamples -/

/-- A machine (M2M) caller. -/
def machineUser : CurrentUser :=
  { userId := "m2m", hasManagePermission := false, isMachine := true,
    isConnectManager := false }

/-- An unprivileged human caller. -/
def plainUser : CurrentUser :=
  { userId := "u1", hasManagePermission := false, isMachine := false,
    isConnectManager := false }

/-- Attributes of the first fixture job. -/
def attrsA : JobAttrs :=
  { projectId := 7, title := "Backend dev", skills := ["s1"], createdBy := "creator-1" }

/-- A stored job with no candidates. -/
def rowA : JobRow := { id := "job-1", attrs := attrsA, candidates := [] }

/-- A candidate of the second fixture job. -/
def candB : Candidate := { id := "c1", jobId := "job-2", userId := "u9" }

/-- A stored job with one candidate. -/
def rowB : JobRow :=
  { id := "job-2", attrs := { attrsA with projectId := 8 }, candidates := [candB] }

/-- A baseline environment: everyone is a member, the index is down for
job reads and searches, skills and the role `r1` exist, publishing
succeeds, and the relational store holds the two fixture jobs. -/
def baseEnv : Env :=
  { isMember := fun _ _ => true
    esGet := fun _ => EsGetOutcome.failure
    esSearch := fun _ => EsSearchOutcome.failure
    esCandidates := fun _ => Except.ok []
    skillLookup := fun _ => SkillOutcome.found
    roleTable := ["r1"]
    getUserId := fun u => "ubahn-" ++ u
    freshId := "new-id-1"
    publishOk := fun _ => true
    db := [rowA, rowB] }

/-- An environment whose index get reports the document-missing condition. -/
def envDocMissing : Env := { baseEnv with esGet := fun _ => EsGetOutcome.docMissing }

/-- An environment where the index serves `job-1` but the caller is not a
member of any project. -/
def envDenyMember : Env :=
  { baseEnv with
    isMember := fun _ _ => false
    esGet := fun i =>
      if i = "job-1" then EsGetOutcome.ok { id := "job-1", source := attrsA }
      else EsGetOutcome.failure }

/-! ### C4: document-missing on the index surfaces NotFound, no fallback -/

/-- C4: for every single-record read via `getJob` with `fromDb = false`, if
the index reports the structural document-missing condition for the
requested id, the operation fails with NotFound and the relational store is
never queried as a fallback. -/
theorem getJob_docMissing_notFound (env : Env) (u : CurrentUser) (id : String)
    (h : env.esGet id = EsGetOutcome.docMissing) :
    getJob env u id false =
      (Except.error (SvcError.notFound ("id: " ++ id ++ " Job not found")),
       [StoreCall.indexGet id]) ∧
    StoreCall.dbFindById id ∉ (getJob env u id false).2 := by
  have hg : getJob env u id false =
      (Except.error (SvcError.notFound ("id: " ++ id ++ " Job not found")),
       [StoreCall.indexGet id]) := by
    unfold getJob
    simp [h]
  refine ⟨hg, ?_⟩
  rw [hg]
  simp

/-- C4 witness: in a concrete environment whose index reports the document
as missing, `getJob` returns NotFound and issues no relational query. -/
theorem getJob_docMissing_notFound_witness :
    getJob envDocMissing machineUser "job-9" false =
      (Except.error (SvcError.notFound ("id: " ++ "job-9" ++ " Job not found")),
       [StoreCall.indexGet "job-9"]) ∧
    StoreCall.dbFindById "job-9" ∉ (getJob envDocMissing machineUser "job-9" false).2 :=
  getJob_docMissing_notFound envDocMissing machineUser "job-9" rfl

/-! ### C1: any index search failure falls back to the relational query -/

/-- C1: for every search where the index query raises an error, `searchJobs`
returns exactly the result of evaluating the same criteria against the
relational store with relational filter semantics, tagged `fromDb = true`,
and the index error is never surfaced to the caller (the overall outcome is
`ok`). -/
theorem searchJobs_indexError_fallsBack (env : Env) (u : CurrentUser)
    (c : SearchCriteria) (o : SearchOptions)
    (hperm : searchJobsPermission env u c o = Except.ok ())
    (hes : env.esSearch (jobSearchQuery c o) = EsSearchOutcome.failure) :
    searchJobs env u c o =
      (Except.ok (searchJobsDb env c (effPage c) (effPerPage c o)
          (effSortBy c) (effSortOrder c)),
       [StoreCall.indexSearch, StoreCall.dbQuery]) ∧
    (searchJobsDb env c (effPage c) (effPerPage c o)
        (effSortBy c) (effSortOrder c)).fromDb = true := by
  constructor
  · unfold searchJobs
    rw [hperm, hes]
  · rfl

/-- C1 witness: a concrete environment whose index search fails; the
machine caller's search is answered by the relational fallback. -/
theorem searchJobs_indexError_fallsBack_witness :
    searchJobs baseEnv machineUser {} {} =
      (Except.ok (searchJobsDb baseEnv {} (effPage {}) (effPerPage {} {})
          (effSortBy {}) (effSortOrder {})),
       [StoreCall.indexSearch, StoreCall.dbQuery]) ∧
    (searchJobsDb baseEnv {} (effPage {}) (effPerPage {} {})
        (effSortBy {}) (effSortOrder {})).fromDb = true :=
  searchJobs_indexError_fallsBack baseEnv machineUser {} {} rfl rfl

/-! ### C9: partial and full update coincide -/

/-- C9: for every caller, job id and patch, `partiallyUpdateJob` and
`fullyUpdateJob` produce identical results and identical side effects:
both delegate to the same `updateJob`, whose parameter list does not bind
the full-replace flag they pass. -/
theorem partiallyUpdate_eq_fullyUpdate (env : Env) (u : CurrentUser)
    (id : String) (data : UpdateData) :
    partiallyUpdateJob env u id data = fullyUpdateJob env u id data := rfl

/-! ### C6: pagination normalization on both paths -/

/-- C6: whenever `searchJobs` answers (on the index path or the fallback
path), the returned `page` is `criteria.page` when greater than `0` and `1`
otherwise, and the returned `perPage` is the index maximum result window
`10000` when `options.returnAll`, else `criteria.perPage` when greater than
`0` and `20` otherwise. -/
theorem searchJobs_pagination (env : Env) (u : CurrentUser)
    (c : SearchCriteria) (o : SearchOptions) (r : SearchResult)
    (h : (searchJobs env u c o).1 = Except.ok r) :
    r.page = (match c.page with | some p => if p > 0 then p else 1 | none => 1) ∧
    r.perPage = (if o.returnAll then 10000
      else match c.perPage with | some pp => if pp > 0 then pp else 20 | none => 20) := by
  have hpp : r.page = effPage c ∧ r.perPage = effPerPage c o := by
    unfold searchJobs at h
    split at h
    · simp at h
    · split at h
      · simp only [Except.ok.injEq] at h
        subst h
        exact ⟨rfl, rfl⟩
      · split at h <;>
          · simp only [Except.ok.injEq] at h
            subst h
            exact ⟨rfl, rfl⟩
  refine ⟨?_, ?_⟩
  · rw [hpp.1]; rfl
  · rw [hpp.2]; rfl

/-- C6 witness: a concrete search with `page = -3`, `perPage = 0` and
`returnAll = false` is answered with `page = 1` and `perPage = 20`. -/
theorem searchJobs_pagination_witness :
    ((searchJobs baseEnv machineUser { page := some (-3), perPage := some 0 } {}).1 =
      Except.ok (searchJobsDb baseEnv { page := some (-3), perPage := some 0 }
        1 20 "id" "desc")) ∧
    (searchJobsDb baseEnv { page := some (-3), perPage := some 0 }
        1 20 "id" "desc").page = 1 ∧
    (searchJobsDb baseEnv { page := some (-3), perPage := some 0 }
        1 20 "id" "desc").perPage = 20 := by
  refine ⟨rfl, ?_⟩
  have h := searchJobs_pagination baseEnv machineUser
    { page := some (-3), perPage := some 0 } {}
    (searchJobsDb baseEnv { page := some (-3), perPage := some 0 } 1 20 "id" "desc") rfl
  exact h

/-! ### C7: meaning of the `total` field on each path -/

/-- C2 counterexample: a caller denied by the guard on `getJob` does get
Forbidden, but only after the job document has been fetched from the index
(the guard needs the document's `projectId`), so the claimed "zero store
calls before the denial" is false for `getJob`. -/
theorem getJob_denied_after_store_call :
    getJob envDenyMember plainUser "job-1" false =
      (Except.error (SvcError.forbidden "You are not a member of this project"),
       [StoreCall.indexGet "job-1"]) ∧
    (getJob envDenyMember plainUser "job-1" false).2 ≠ [] := by
  constructor
  · rfl
  · decide

/-- C2 amended: a guard denial on `searchJobs` short-circuits with zero
store calls; on `getJob`'s index path the one index read needed to learn
the job's `projectId` precedes the guard, whose denial is then surfaced
as-is and never triggers a fallback to the relational store. -/
theorem perm_denial_short_circuits (env : Env) (u : CurrentUser)
    (c : SearchCriteria) (o : SearchOptions) (e : SvcError)
    (hperm : searchJobsPermission env u c o = Except.error e) :
    searchJobs env u c o = (Except.error e, []) ∧
    ∀ (env2 : Env) (u2 : CurrentUser) (id : String) (hit : EsHit) (e2 : SvcError),
      env2.esGet id = EsGetOutcome.ok hit →
      checkUserPermissionForGetJob env2 u2 hit.source.projectId = Except.error e2 →
      getJob env2 u2 id false = (Except.error e2, [StoreCall.indexGet id]) := by
  constructor
  · unfold searchJobs
    rw [hperm]
  · intro env2 u2 id hit e2 hget hchk
    unfold getJob
    rw [hget]
    dsimp only
    rw [hchk]
    simp

/-- C2 witness: an unprivileged caller searching without a `projectId`
filter gets Forbidden with zero store calls, and the same caller denied on
`getJob` gets Forbidden right after the single index read. -/
theorem perm_denial_short_circuits_witness :
    searchJobs baseEnv plainUser {} {} =
      (Except.error (SvcError.forbidden "Not allowed without filtering by projectId"),
       []) ∧
    getJob envDenyMember plainUser "job-1" false =
      (Except.error (SvcError.forbidden "You are not a member of this project"),
       [StoreCall.indexGet "job-1"]) := by
  have h := perm_denial_short_circuits baseEnv plainUser {} {}
    (SvcError.forbidden "Not allowed without filtering by projectId") rfl
  exact ⟨h.1, h.2 envDenyMember plainUser "job-1" { id := "job-1", source := attrsA }
    (SvcError.forbidden "You are not a member of this project") rfl rfl⟩

/-! ### C8: presence of the `candidates` key -/

/-- C8 counterexample: on the relational path (`fromDb = true`) a job with
zero candidates is returned with the `candidates` key present (an empty
list), not omitted, contradicting the claim for the fallback path. -/
theorem getJob_fallback_empty_candidates_present :
    rowA.candidates = [] ∧
    (getJob baseEnv machineUser "job-1" true).1 =
      Except.ok { id := "job-1", attrs := attrsA, candidates := some [] } :=
  ⟨rfl, rfl⟩

/-- Helper: every record produced by the index-path enrichment carries the
`candidates` key exactly when its fetched candidate list is non-empty. -/
theorem enrichHits_candidates (env : Env) :
    ∀ (hits : List EsHit) (res : List JobResult),
      enrichHits env hits = Except.ok res →
      ∀ jr ∈ res, ∃ cl, env.esCandidates jr.id = Except.ok cl ∧
        jr.candidates = (if cl = [] then none else some cl) := by
  intro hits
  induction hits with
  | nil =>
    intro res h jr hm
    simp only [enrichHits, Except.ok.injEq] at h
    subst h
    simp at hm
  | cons hit rest ih =>
    intro res h jr hm
    unfold enrichHits at h
    cases hc : env.esCandidates hit.id with
    | error e => rw [hc] at h; simp at h
    | ok cands =>
      cases hr : enrichHits env rest with
      | error e => rw [hc, hr] at h; simp at h
      | ok tail =>
        rw [hc, hr] at h
        simp only [Except.ok.injEq] at h
        subst h
        rcases List.mem_cons.mp hm with hjr | hjr
        · subst hjr
          refine ⟨cands, hc, ?_⟩
          cases cands with
          | nil => simp
          | cons a as => simp
        · exact ih tail hr jr hjr

/-- C8 amended: on the index path (both `getJob` and the `searchJobs`
enrichment) a job with zero candidates omits the `candidates` key and a job
with one or more candidates carries the full list; on the relational
fallback path (`getJob` with `fromDb` and the `searchJobs` fallback) the
key is always present, possibly as an empty list. -/
theorem candidates_key_presence (env : Env) (u : CurrentUser) (id : String)
    (hit : EsHit) (cands : List Candidate) (row : JobRow)
    (c : SearchCriteria) (page perPage : Int) (sortBy sortOrder : String) :
    (env.esGet id = EsGetOutcome.ok hit →
     checkUserPermissionForGetJob env u hit.source.projectId = Except.ok () →
     env.esCandidates hit.id = Except.ok cands →
     (getJob env u id false).1 =
       Except.ok { id := hit.id, attrs := hit.source,
                   candidates := if cands = [] then none else some cands }) ∧
    (jobFindById env.db id = Except.ok row →
     checkUserPermissionForGetJob env u row.attrs.projectId = Except.ok () →
     (getJob env u id true).1 =
       Except.ok { id := row.id, attrs := row.attrs, candidates := some row.candidates }) ∧
    (∀ hits res, enrichHits env hits = Except.ok res →
       ∀ jr ∈ res, ∃ cl, env.esCandidates jr.id = Except.ok cl ∧
         jr.candidates = (if cl = [] then none else some cl)) ∧
    (∀ jr ∈ (searchJobsDb env c page perPage sortBy sortOrder).result,
       ∃ cl, jr.candidates = some cl) := by
  refine ⟨?_, ?_, enrichHits_candidates env, ?_⟩
  · intro hget hchk hcands
    unfold getJob
    rw [hget]
    dsimp only
    rw [hchk]
    dsimp only
    rw [hcands]
    cases cands with
    | nil => simp
    | cons a as => simp
  · intro hfind hchk
    unfold getJob getJobFromDb
    rw [hfind]
    dsimp only
    rw [hchk]
    simp
  · intro jr hm
    unfold searchJobsDb at hm
    simp only [List.mem_map] at hm
    obtain ⟨r, -, hr⟩ := hm
    exact ⟨r.candidates, by rw [← hr]⟩

/-- C8 amended witness: a concrete index-path read of a job whose candidate
search returns one candidate attaches the full list, and the fallback rows
of a concrete search all carry the `candidates` key. -/
theorem candidates_key_presence_witness :
    (getJob { baseEnv with
        esGet := fun _ => EsGetOutcome.ok { id := "job-2", source := rowB.attrs }
        esCandidates := fun _ => Except.ok [candB] }
      machineUser "job-2" false).1 =
      Except.ok { id := "job-2", attrs := rowB.attrs,
                  candidates := if [candB] = [] then none else some [candB] } ∧
    (getJob baseEnv machineUser "job-2" true).1 =
      Except.ok { id := rowB.id, attrs := rowB.attrs, candidates := some rowB.candidates } := by
  constructor
  · exact (candidates_key_presence
      { baseEnv with
        esGet := fun _ => EsGetOutcome.ok { id := "job-2", source := rowB.attrs }
        esCandidates := fun _ => Except.ok [candB] }
      machineUser "job-2" { id := "job-2", source := rowB.attrs } [candB] rowB
      {} 1 20 "id" "desc").1 rfl rfl rfl
  · exact (candidates_key_presence baseEnv machineUser "job-2"
      { id := "job-2", source := rowB.attrs } [candB] rowB
      {} 1 20 "id" "desc").2.1 rfl rfl

/-! ### C5: the machine-only guard on `isApplicationPageActive` -/

/-- An environment in which the skill `bad-skill` does not exist. -/
def badSkillEnv : Env :=
  { baseEnv with
    skillLookup := fun s =>
      if s = "bad-skill" then SkillOutcome.notFound else SkillOutcome.found }

/-- A patch that sets `isApplicationPageActive` and references an invalid
skill. -/
def dataBadSkill : UpdateData :=
  { skills := some ["bad-skill"], isApplicationPageActive := some true }

/-- A patch that only sets `isApplicationPageActive`. -/
def dataPageActive : UpdateData := { isApplicationPageActive := some true }

/-- A create input that sets `isApplicationPageActive`. -/
def attrsPageActive : JobAttrs :=
  { projectId := 7, title := "Backend dev", skills := ["s1"],
    isApplicationPageActive := some true }

/-- C5 counterexample: an `updateJob` call by a non-machine caller whose
patch contains `isApplicationPageActive` together with an invalid skill
fails with BadRequest from the earlier skill validation, not with the
claimed Forbidden. -/
theorem updateJob_pageActive_not_always_forbidden :
    plainUser.isMachine = false ∧
    dataBadSkill.isApplicationPageActive = some true ∧
    (updateJob badSkillEnv plainUser "job-1" dataBadSkill).1 =
      Except.error (SvcError.badRequest "Invalid skills: [bad-skill]") :=
  ⟨rfl, rfl, rfl⟩

/-- C5 amended: with `isApplicationPageActive` present and a non-machine
caller, `createJob` always fails with a Forbidden error and performs no
write and emits no event; `updateJob` likewise performs no write and emits
no event, and fails with the Forbidden of the machine-only guard provided
skill validation, role validation and the job lookup succeed (otherwise it
fails with their earlier error). -/
theorem isApplicationPageActive_machine_only (env : Env) (u : CurrentUser)
    (job : JobAttrs) (id : String) (data : UpdateData) (row : JobRow)
    (hm : u.isMachine = false)
    (hj : job.isApplicationPageActive.isSome)
    (hd : data.isApplicationPageActive.isSome) :
    (∃ m, (createJob env u job).1 = Except.error (SvcError.forbidden m)) ∧
    (createJob env u job).2.db = env.db ∧
    (createJob env u job).2.events = [] ∧
    (updateJob env u id data).2.db = env.db ∧
    (updateJob env u id data).2.events = [] ∧
    ((match data.skills with
      | some ss => validateSkills env ss
      | none => Except.ok ()) = Except.ok () →
     (match data.roleIds with
      | some ids => validateRoles env (jsUniq ids)
      | none => Except.ok ()) = Except.ok () →
     jobFindById env.db id = Except.ok row →
     (updateJob env u id data).1 =
       Except.error (SvcError.forbidden
         "You are not allowed to set/update the value of field isApplicationPageActive.")) := by
  have hcreate : (∃ m, (createJob env u job).1 = Except.error (SvcError.forbidden m)) ∧
      (createJob env u job).2.db = env.db ∧ (createJob env u job).2.events = [] := by
    unfold createJob
    by_cases h1 :
        (!u.hasManagePermission && !u.isMachine && !env.isMember u.userId job.projectId) = true
    · rw [if_pos h1]
      exact ⟨⟨"You are not a member of this project", rfl⟩, rfl, rfl⟩
    · rw [if_neg h1, if_pos (by rw [hj, hm]; rfl)]
      exact ⟨⟨"You are not allowed to set/update the value of field isApplicationPageActive.",
        rfl⟩, rfl, rfl⟩
  have hnowrite : (updateJob env u id data).2.db = env.db ∧
      (updateJob env u id data).2.events = [] := by
    cases hski : data.skills with
    | some ss =>
      cases hsv : validateSkills env ss with
      | error e => simp [updateJob, hski, hsv]
      | ok v =>
        cases v
        cases hri : data.roleIds with
        | none =>
          cases hfd : jobFindById env.db id with
          | error e => simp [updateJob, hski, hsv, hri, hfd]
          | ok row' => simp [updateJob, hski, hsv, hri, hfd, hd, hm]
        | some ids =>
          cases hro : validateRoles env (jsUniq ids) with
          | error e => simp [updateJob, hski, hsv, hri, hro]
          | ok w =>
            cases w
            cases hfd : jobFindById env.db id with
            | error e => simp [updateJob, hski, hsv, hri, hro, hfd]
            | ok row' => simp [updateJob, hski, hsv, hri, hro, hfd, hd, hm]
    | none =>
      cases hri : data.roleIds with
      | none =>
        cases hfd : jobFindById env.db id with
        | error e => simp [updateJob, hri, hski, hfd]
        | ok row' => simp [updateJob, hri, hski, hfd, hd, hm]
      | some ids =>
        cases hro : validateRoles env (jsUniq ids) with
        | error e => simp [updateJob, hri, hski, hro]
        | ok w =>
          cases w
          cases hfd : jobFindById env.db id with
          | error e => simp [updateJob, hri, hski, hro, hfd]
          | ok row' => simp [updateJob, hri, hski, hro, hfd, hd, hm]
  refine ⟨hcreate.1, hcreate.2.1, hcreate.2.2, hnowrite.1, hnowrite.2, ?_⟩
  intro hsk hro hfd
  cases hski : data.skills with
  | some ss =>
    rw [hski] at hsk
    simp only at hsk
    cases hri : data.roleIds with
    | none => simp [updateJob, hski, hsk, hri, hfd, hd, hm]
    | some ids =>
      simp only [hri] at hro
      simp [updateJob, hski, hsk, hri, hro, hfd, hd, hm]
  | none =>
    cases hri : data.roleIds with
    | none => simp [updateJob, hski, hri, hfd, hd, hm]
    | some ids =>
      simp only [hri] at hro
      simp [updateJob, hski, hri, hro, hfd, hd, hm]

/-- C5 amended witness: a concrete non-machine caller setting
`isApplicationPageActive` gets Forbidden on both `createJob` and a valid
`updateJob`, with no store write and no event on either. -/
theorem isApplicationPageActive_machine_only_witness :
    (∃ m, (createJob baseEnv plainUser attrsPageActive).1 =
      Except.error (SvcError.forbidden m)) ∧
    (createJob baseEnv plainUser attrsPageActive).2.db = baseEnv.db ∧
    (createJob baseEnv plainUser attrsPageActive).2.events = [] ∧
    (updateJob baseEnv plainUser "job-1" dataPageActive).2.db = baseEnv.db ∧
    (updateJob baseEnv plainUser "job-1" dataPageActive).2.events = [] ∧
    (updateJob baseEnv plainUser "job-1" dataPageActive).1 =
      Except.error (SvcError.forbidden
        "You are not allowed to set/update the value of field isApplicationPageActive.") := by
  have h := isApplicationPageActive_machine_only baseEnv plainUser attrsPageActive
    "job-1" dataPageActive rowA rfl rfl rfl
  exact ⟨h.1, h.2.1, h.2.2.1, h.2.2.2.1, h.2.2.2.2.1, h.2.2.2.2.2 rfl rfl rfl⟩

/-! ### C10: validations and the lookup precede the authorization check -/

/-- A patch that only references an invalid skill. -/
def dataOnlyBadSkill : UpdateData := { skills := some ["bad-skill"] }

/-- C10: in `updateJob`, skill validation, role validation and the job
lookup all run before the creator-or-privileged authorization check: for
every caller (in particular a non-creator unprivileged one) an invalid
skill or role id surfaces the validation's BadRequest, and a nonexistent
job id surfaces the lookup's NotFound, before any authorization decision. -/
theorem updateJob_validation_precedes_authz (env : Env) (u : CurrentUser)
    (id : String) (data : UpdateData) :
    (∀ ss e, data.skills = some ss → validateSkills env ss = Except.error e →
       updateJob env u id data =
         (Except.error e, { db := env.db, events := [], logs := [] })) ∧
    (∀ ids e, (match data.skills with
               | some ss => validateSkills env ss
               | none => Except.ok ()) = Except.ok () →
       data.roleIds = some ids →
       validateRoles env (jsUniq ids) = Except.error e →
       updateJob env u id data =
         (Except.error e, { db := env.db, events := [], logs := [] })) ∧
    (∀ m, (match data.skills with
           | some ss => validateSkills env ss
           | none => Except.ok ()) = Except.ok () →
       (match data.roleIds with
        | some ids => validateRoles env (jsUniq ids)
        | none => Except.ok ()) = Except.ok () →
       jobFindById env.db id = Except.error (SvcError.notFound m) →
       updateJob env u id data =
         (Except.error (SvcError.notFound m), { db := env.db, events := [], logs := [] })) := by
  refine ⟨?_, ?_, ?_⟩
  · intro ss e hski hsv
    simp [updateJob, hski, hsv]
  · intro ids e hsk hri hro
    cases hski : data.skills with
    | some ss =>
      rw [hski] at hsk
      simp only at hsk
      simp [updateJob, hski, hsk, hri, hro]
    | none =>
      simp [updateJob, hski, hri, hro]
  · intro m hsk hro hfd
    cases hski : data.skills with
    | some ss =>
      rw [hski] at hsk
      simp only at hsk
      cases hri : data.roleIds with
      | none => simp [updateJob, hski, hsk, hri, hfd]
      | some ids =>
        simp only [hri] at hro
        simp [updateJob, hski, hsk, hri, hro, hfd]
    | none =>
      cases hri : data.roleIds with
      | none => simp [updateJob, hski, hri, hfd]
      | some ids =>
        simp only [hri] at hro
        simp [updateJob, hski, hri, hro, hfd]

/-- A patch with valid skills together with an invalid role id. -/
def dataBadRole : UpdateData :=
  { skills := some ["s1"], roleIds := some ["bad-role"] }

/-- C10 witness: a non-creator unprivileged caller supplying an invalid
skill gets BadRequest, one supplying valid skills together with an invalid
role id gets the role validation's BadRequest, and an update of a
nonexistent job id gets the lookup's NotFound; none of these is an
authorization error. -/
theorem updateJob_validation_precedes_authz_witness :
    updateJob badSkillEnv plainUser "job-1" dataOnlyBadSkill =
      (Except.error (SvcError.badRequest "Invalid skills: [bad-skill]"),
       { db := badSkillEnv.db, events := [], logs := [] }) ∧
    updateJob baseEnv plainUser "job-1" dataBadRole =
      (Except.error (SvcError.badRequest "Invalid roles: [bad-role]"),
       { db := baseEnv.db, events := [], logs := [] }) ∧
    updateJob baseEnv plainUser "no-such-id" {} =
      (Except.error (SvcError.notFound "id: no-such-id Job doesn't exists"),
       { db := baseEnv.db, events := [], logs := [] }) := by
  refine ⟨?_, ?_, ?_⟩
  · exact (updateJob_validation_precedes_authz badSkillEnv plainUser "job-1"
      dataOnlyBadSkill).1 ["bad-skill"]
      (SvcError.badRequest "Invalid skills: [bad-skill]") rfl rfl
  · have hro : validateRoles baseEnv (jsUniq ["bad-role"]) =
        Except.error (SvcError.badRequest "Invalid roles: [bad-role]") := by
      have h1 : jsUniq ["bad-role"] = ["bad-role"] := by simp [jsUniq]
      rw [h1]
      rfl
    exact (updateJob_validation_precedes_authz baseEnv plainUser "job-1"
      dataBadRole).2.1 ["bad-role"]
      (SvcError.badRequest "Invalid roles: [bad-role]") rfl rfl hro
  · exact (updateJob_validation_precedes_authz baseEnv plainUser "no-such-id" {}).2.2
      "id: no-such-id Job doesn't exists" rfl rfl rfl

/-! ### C3: propagation-publish failures are isolated from the write -/

/-- Skill validation does not depend on the event transport. -/
theorem validateSkills_env_publishOk (env : Env) (p : String → Bool)
    (ss : List String) :
    validateSkills { env with publishOk := p } ss = validateSkills env ss := rfl

/-- Role validation does not depend on the event transport. -/
theorem validateRoles_env_publishOk (env : Env) (p : String → Bool)
    (rs : List String) :
    validateRoles { env with publishOk := p } rs = validateRoles env rs := rfl

/-- Helper: `createJob`'s caller-visible result and resulting store state
are independent of the transport outcome; when an event was attempted, a
transport failure shows up only in the logs; a successful create commits
exactly the new row. -/
theorem createJob_publish_isolated (env : Env) (u : CurrentUser) (job : JobAttrs) :
    (createJob env u job).1 = (createJob { env with publishOk := fun _ => true } u job).1 ∧
    (createJob env u job).2.db = (createJob { env with publishOk := fun _ => true } u job).2.db ∧
    ((createJob env u job).2.events ≠ [] →
      (createJob env u job).2.logs =
        (if env.publishOk "TAAS_JOB_CREATE_TOPIC" then []
         else ["postEvent failed: TAAS_JOB_CREATE_TOPIC"])) ∧
    (∀ r, (createJob env u job).1 = Except.ok r →
      (createJob env u job).2.db = env.db ++ [r]) := by
  by_cases h1 :
      (!u.hasManagePermission && !u.isMachine && !env.isMember u.userId job.projectId) = true
  · refine ⟨by simp [createJob, h1], by simp [createJob, h1], by simp [createJob, h1], ?_⟩
    intro r hr
    simp [createJob, h1] at hr
  · by_cases h2 : (job.isApplicationPageActive.isSome && !u.isMachine) = true
    · refine ⟨by simp [createJob, h1, h2], by simp [createJob, h1, h2],
        by simp [createJob, h1, h2], ?_⟩
      intro r hr
      simp [createJob, h1, h2] at hr
    · cases hsv : validateSkills env job.skills with
      | error e =>
        refine ⟨by simp [createJob, h1, h2, hsv, validateSkills_env_publishOk],
          by simp [createJob, h1, h2, hsv, validateSkills_env_publishOk],
          by simp [createJob, h1, h2, hsv, validateSkills_env_publishOk], ?_⟩
        intro r hr
        simp [createJob, h1, h2, hsv, validateSkills_env_publishOk] at hr
      | ok v =>
        cases v
        cases hri : job.roleIds with
        | none =>
          refine ⟨by simp [createJob, h1, h2, hsv, hri, validateSkills_env_publishOk],
            by simp [createJob, h1, h2, hsv, hri, validateSkills_env_publishOk],
            by simp [createJob, postEvent, h1, h2, hsv, hri, validateSkills_env_publishOk], ?_⟩
          intro r hr
          unfold createJob at hr ⊢
          rw [if_neg h1, if_neg h2] at hr ⊢
          simp only [hsv, hri] at hr ⊢
          rw [← Except.ok.inj hr]
        | some ids =>
          cases hro : validateRoles env (jsUniq ids) with
          | error e =>
            refine ⟨by simp [createJob, h1, h2, hsv, hri, hro,
                validateSkills_env_publishOk, validateRoles_env_publishOk],
              by simp [createJob, h1, h2, hsv, hri, hro,
                validateSkills_env_publishOk, validateRoles_env_publishOk],
              by simp [createJob, h1, h2, hsv, hri, hro,
                validateSkills_env_publishOk, validateRoles_env_publishOk], ?_⟩
            intro r hr
            simp [createJob, h1, h2, hsv, hri, hro,
              validateSkills_env_publishOk, validateRoles_env_publishOk] at hr
          | ok w =>
            cases w
            refine ⟨by simp [createJob, h1, h2, hsv, hri, hro,
                validateSkills_env_publishOk, validateRoles_env_publishOk],
              by simp [createJob, h1, h2, hsv, hri, hro,
                validateSkills_env_publishOk, validateRoles_env_publishOk],
              by simp [createJob, postEvent, h1, h2, hsv, hri, hro,
                validateSkills_env_publishOk, validateRoles_env_publishOk], ?_⟩
            intro r hr
            unfold createJob at hr ⊢
            rw [if_neg h1, if_neg h2] at hr ⊢
            simp only [hsv, hri, hro] at hr ⊢
            rw [← Except.ok.inj hr]

/-- Helper: `updateJob`'s caller-visible result and resulting store state
are independent of the transport outcome; a transport failure of the
attempted event shows up only in the logs. -/
theorem updateJob_publish_isolated (env : Env) (u : CurrentUser) (id : String)
    (data : UpdateData) :
    (updateJob env u id data).1 =
      (updateJob { env with publishOk := fun _ => true } u id data).1 ∧
    (updateJob env u id data).2.db =
      (updateJob { env with publishOk := fun _ => true } u id data).2.db ∧
    ((updateJob env u id data).2.events ≠ [] →
      (updateJob env u id data).2.logs =
        (if env.publishOk "TAAS_JOB_UPDATE_TOPIC" then []
         else ["postEvent failed: TAAS_JOB_UPDATE_TOPIC"])) := by
  cases hski : data.skills with
  | some ss =>
    cases hsv : validateSkills env ss with
    | error e =>
      refine ⟨?_, ?_, ?_⟩ <;>
        simp [updateJob, hski, hsv, validateSkills_env_publishOk]
    | ok v =>
      cases v
      cases hri : data.roleIds with
      | none =>
        cases hfd : jobFindById env.db id with
        | error e =>
          refine ⟨?_, ?_, ?_⟩ <;>
            simp [updateJob, hski, hsv, hri, hfd, validateSkills_env_publishOk]
        | ok row' =>
          by_cases hmach : u.isMachine = true
          · refine ⟨?_, ?_, ?_⟩ <;>
              simp [updateJob, postEvent, hski, hsv, hri, hfd, validateSkills_env_publishOk, hmach]
          · by_cases h2 : data.isApplicationPageActive.isSome = true
            · refine ⟨?_, ?_, ?_⟩ <;>
                simp [updateJob, hski, hsv, hri, hfd, validateSkills_env_publishOk, hmach, h2]
            · by_cases h3 : u.hasManagePermission = false ∧ ¬env.getUserId u.userId = row'.attrs.createdBy
              · refine ⟨?_, ?_, ?_⟩ <;>
                  simp [updateJob, hski, hsv, hri, hfd, validateSkills_env_publishOk, hmach, h2, h3]
              · refine ⟨?_, ?_, ?_⟩ <;>
                  simp [updateJob, postEvent, hski, hsv, hri, hfd, validateSkills_env_publishOk, hmach, h2, h3]
      | some ids =>
        cases hro : validateRoles env (jsUniq ids) with
        | error e =>
          refine ⟨?_, ?_, ?_⟩ <;>
            simp [updateJob, hski, hsv, hri, hro,
              validateSkills_env_publishOk, validateRoles_env_publishOk]
        | ok w =>
          cases w
          cases hfd : jobFindById env.db id with
          | error e =>
            refine ⟨?_, ?_, ?_⟩ <;>
              simp [updateJob, hski, hsv, hri, hro, hfd,
                validateSkills_env_publishOk, validateRoles_env_publishOk]
          | ok row' =>
            by_cases hmach : u.isMachine = true
            · refine ⟨?_, ?_, ?_⟩ <;>
                simp [updateJob, postEvent, hski, hsv, hri, hro, hfd, validateSkills_env_publishOk, validateRoles_env_publishOk, hmach]
            · by_cases h2 : data.isApplicationPageActive.isSome = true
              · refine ⟨?_, ?_, ?_⟩ <;>
                  simp [updateJob, hski, hsv, hri, hro, hfd, validateSkills_env_publishOk, validateRoles_env_publishOk, hmach, h2]
              · by_cases h3 : u.hasManagePermission = false ∧ ¬env.getUserId u.userId = row'.attrs.createdBy
                · refine ⟨?_, ?_, ?_⟩ <;>
                    simp [updateJob, hski, hsv, hri, hro, hfd, validateSkills_env_publishOk, validateRoles_env_publishOk, hmach, h2, h3]
                · refine ⟨?_, ?_, ?_⟩ <;>
                    simp [updateJob, postEvent, hski, hsv, hri, hro, hfd, validateSkills_env_publishOk, validateRoles_env_publishOk, hmach, h2, h3]
  | none =>
    cases hri : data.roleIds with
    | none =>
      cases hfd : jobFindById env.db id with
      | error e =>
        refine ⟨?_, ?_, ?_⟩ <;> simp [updateJob, hski, hri, hfd]
      | ok row' =>
        by_cases hmach : u.isMachine = true
        · refine ⟨?_, ?_, ?_⟩ <;>
            simp [updateJob, postEvent, hski, hri, hfd, hmach]
        · by_cases h2 : data.isApplicationPageActive.isSome = true
          · refine ⟨?_, ?_, ?_⟩ <;>
              simp [updateJob, hski, hri, hfd, hmach, h2]
          · by_cases h3 : u.hasManagePermission = false ∧ ¬env.getUserId u.userId = row'.attrs.createdBy
            · refine ⟨?_, ?_, ?_⟩ <;>
                simp [updateJob, hski, hri, hfd, hmach, h2, h3]
            · refine ⟨?_, ?_, ?_⟩ <;>
                simp [updateJob, postEvent, hski, hri, hfd, hmach, h2, h3]
    | some ids =>
      cases hro : validateRoles env (jsUniq ids) with
      | error e =>
        refine ⟨?_, ?_, ?_⟩ <;>
          simp [updateJob, hski, hri, hro, validateRoles_env_publishOk]
      | ok w =>
        cases w
        cases hfd : jobFindById env.db id with
        | error e =>
          refine ⟨?_, ?_, ?_⟩ <;>
            simp [updateJob, hski, hri, hro, hfd, validateRoles_env_publishOk]
        | ok row' =>
          by_cases hmach : u.isMachine = true
          · refine ⟨?_, ?_, ?_⟩ <;>
              simp [updateJob, postEvent, hski, hri, hro, hfd, validateRoles_env_publishOk, hmach]
          · by_cases h2 : data.isApplicationPageActive.isSome = true
            · refine ⟨?_, ?_, ?_⟩ <;>
                simp [updateJob, hski, hri, hro, hfd, validateRoles_env_publishOk, hmach, h2]
            · by_cases h3 : u.hasManagePermission = false ∧ ¬env.getUserId u.userId = row'.attrs.createdBy
              · refine ⟨?_, ?_, ?_⟩ <;>
                  simp [updateJob, hski, hri, hro, hfd, validateRoles_env_publishOk, hmach, h2, h3]
              · refine ⟨?_, ?_, ?_⟩ <;>
                  simp [updateJob, postEvent, hski, hri, hro, hfd, validateRoles_env_publishOk, hmach, h2, h3]

/-- Helper: `deleteJob`'s caller-visible result and resulting store state
are independent of the transport outcome; a transport failure of the
attempted event shows up only in the logs. -/
theorem deleteJob_publish_isolated (env : Env) (u : CurrentUser) (id : String) :
    (deleteJob env u id).1 = (deleteJob { env with publishOk := fun _ => true } u id).1 ∧
    (deleteJob env u id).2.db = (deleteJob { env with publishOk := fun _ => true } u id).2.db ∧
    ((deleteJob env u id).2.events ≠ [] →
      (deleteJob env u id).2.logs =
        (if env.publishOk "TAAS_JOB_DELETE_TOPIC" then []
         else ["postEvent failed: TAAS_JOB_DELETE_TOPIC"])) := by
  by_cases h1 : (!u.hasManagePermission && !u.isMachine) = true
  · refine ⟨?_, ?_, ?_⟩ <;> simp [deleteJob, h1]
  · cases hfd : jobFindById env.db id with
    | error e => refine ⟨?_, ?_, ?_⟩ <;> simp [deleteJob, h1, hfd]
    | ok row' => refine ⟨?_, ?_, ?_⟩ <;> simp [deleteJob, postEvent, h1, hfd]

/-- C3: for every write operation (`createJob`, `updateJob`, `deleteJob`),
when the propagation-event publish fails the caller still receives exactly
the result it would receive with a successful publish, the committed store
state is identical (no rollback; a successful create commits exactly the
new row), and the publish failure appears only in the logs. -/
theorem publish_failure_is_isolated (env : Env) (u : CurrentUser) (job : JobAttrs)
    (id : String) (data : UpdateData)
    (hpub : ∀ t, env.publishOk t = false) :
    ((createJob env u job).1 = (createJob { env with publishOk := fun _ => true } u job).1 ∧
     (createJob env u job).2.db = (createJob { env with publishOk := fun _ => true } u job).2.db ∧
     ((createJob env u job).2.events ≠ [] →
       (createJob env u job).2.logs = ["postEvent failed: TAAS_JOB_CREATE_TOPIC"]) ∧
     (∀ r, (createJob env u job).1 = Except.ok r →
       (createJob env u job).2.db = env.db ++ [r])) ∧
    ((updateJob env u id data).1 =
       (updateJob { env with publishOk := fun _ => true } u id data).1 ∧
     (updateJob env u id data).2.db =
       (updateJob { env with publishOk := fun _ => true } u id data).2.db ∧
     ((updateJob env u id data).2.events ≠ [] →
       (updateJob env u id data).2.logs = ["postEvent failed: TAAS_JOB_UPDATE_TOPIC"])) ∧
    ((deleteJob env u id).1 = (deleteJob { env with publishOk := fun _ => true } u id).1 ∧
     (deleteJob env u id).2.db = (deleteJob { env with publishOk := fun _ => true } u id).2.db ∧
     ((deleteJob env u id).2.events ≠ [] →
       (deleteJob env u id).2.logs = ["postEvent failed: TAAS_JOB_DELETE_TOPIC"])) := by
  obtain ⟨c1, c2, c3, c4⟩ := createJob_publish_isolated env u job
  obtain ⟨u1, u2, u3⟩ := updateJob_publish_isolated env u id data
  obtain ⟨d1, d2, d3⟩ := deleteJob_publish_isolated env u id
  refine ⟨⟨c1, c2, ?_, c4⟩, ⟨u1, u2, ?_⟩, ⟨d1, d2, ?_⟩⟩
  · intro h
    rw [c3 h, hpub]
    simp
  · intro h
    rw [u3 h, hpub]
    simp
  · intro h
    rw [d3 h, hpub]
    simp

/-- An environment in which every event publish fails. -/
def envPubFail : Env := { baseEnv with publishOk := fun _ => false }

/-- C3 witness: with a failing transport, the machine caller's concrete
create and update still return the successful-publish results and only log
the failure. -/
theorem publish_failure_is_isolated_witness :
    (createJob envPubFail machineUser attrsA).1 =
      (createJob { envPubFail with publishOk := fun _ => true } machineUser attrsA).1 ∧
    (createJob envPubFail machineUser attrsA).2.logs =
      ["postEvent failed: TAAS_JOB_CREATE_TOPIC"] ∧
    (updateJob envPubFail machineUser "job-1" {}).2.logs =
      ["postEvent failed: TAAS_JOB_UPDATE_TOPIC"] := by
  have h := publish_failure_is_isolated envPubFail machineUser attrsA "job-1" {}
    (fun _ => rfl)
  exact ⟨h.1.1, h.1.2.2.1 (by decide), h.2.1.2.2 (by decide)⟩

end Taas
